import Mathlib

/-!
Verification development for the usar-ranklist repository.

The Python sources are shallowly embedded as executable Lean definitions:
 - `api/index.py` (the Vercel serverless API) and `result-management/main.py`
   (the FastAPI backend): branch decoding, SGPA computation and `get_ranklist`;
 - `result-management/models.py`: `BranchInfo`, `EnrollmentDetails.parse` and
   `Student.calculate_sgpa`;
 - `src/parser/pdf_parser.py`: `BTechResultParser._parse_student_row` and the
   credits-secured computation.

Numbers are embedded as `Nat`/`Int`/`Rat` (the data carries small exact
decimals, so exact rationals model the Python floats faithfully on all inputs
appearing here); Python's `round(x, 2)` is embedded as round-half-to-even on
rationals.  Python's stable `list.sort` is embedded as a stable insertion
sort: stable sorts with respect to one total preorder agree extensionally.
-/

/- ---------------------------------------------------------------
   Python-like string primitives, on `List Char` / `String`.
   --------------------------------------------------------------- -/

/-- Whitespace characters removed by Python's `str.strip()`. -/
def pyIsSpace (c : Char) : Bool :=
  c = ' ' || c = '\t' || c = '\n' || c = '\r' || c = '\x0b' || c = '\x0c'

/-- `str.strip()` on a character list. -/
def pyStripL (l : List Char) : List Char :=
  ((l.dropWhile pyIsSpace).reverse.dropWhile pyIsSpace).reverse

/-- `str.strip()`. -/
def pyStrip (s : String) : String :=
  String.mk (pyStripL s.toList)

/-- `str.upper()` (ASCII letters; no input here uses anything beyond ASCII). -/
def toUpperS (s : String) : String :=
  String.mk (s.toList.map Char.toUpper)

/-- `str.lower()` (ASCII letters). -/
def toLowerS (s : String) : String :=
  String.mk (s.toList.map Char.toLower)

/-- The Python slice `s[a:b]` (for `a ≤ b`, the only shape used). -/
def pySlice (s : String) (a b : Nat) : String :=
  String.mk ((s.toList.drop a).take (b - a))

/-- `str.split('\n')`: split on newline, keeping empty pieces. -/
def splitOnNl : List Char → List (List Char)
  | [] => [[]]
  | c :: t =>
    match splitOnNl t with
    | [] => [[]]
    | cur :: rest => if c = '\n' then [] :: cur :: rest else (c :: cur) :: rest

/-- Python's substring containment `pat in s`. -/
def containsSub (pat : List Char) : List Char → Bool
  | [] => pat.isPrefixOf ([] : List Char)
  | c :: t => pat.isPrefixOf (c :: t) || containsSub pat t

/-- Fuel-driven worker for `replaceAllL`; fuel bounds the number of steps,
`replaceAllL` supplies enough for the whole list. -/
def replaceAllFuel (pat : List Char) : Nat → List Char → List Char
  | 0, l => l
  | _ + 1, [] => []
  | n + 1, c :: t =>
    if pat ≠ [] ∧ pat.isPrefixOf (c :: t) then
      replaceAllFuel pat n ((c :: t).drop pat.length)
    else
      c :: replaceAllFuel pat n t

/-- Python's `str.replace(pat, "")`: remove every non-overlapping occurrence,
scanning left to right. -/
def replaceAllL (pat : List Char) (l : List Char) : List Char :=
  replaceAllFuel pat l.length l

/-- Numeric value of a digit list (digits already checked by the caller). -/
def natOfDigits (l : List Char) : Nat :=
  l.foldl (fun a c => 10 * a + (c.toNat - '0'.toNat)) 0

/-- All-digit parse; `none` when empty or a non-digit occurs. -/
def parseDigits (l : List Char) : Option Nat :=
  if l ≠ [] ∧ l.all Char.isDigit then some (natOfDigits l) else none

/-- Python's `int(s)` on an already-stripped string: optional sign, digits. -/
def pyInt (s : String) : Option Int :=
  match s.toList with
  | '-' :: t => (parseDigits t).map (fun n => -(n : Int))
  | '+' :: t => (parseDigits t).map (fun n => (n : Int))
  | l => (parseDigits l).map (fun n => (n : Int))

/- ---------------------------------------------------------------
   Python's round(x, 2): round half to even, on exact rationals.
   --------------------------------------------------------------- -/

/-- Round a rational to the nearest integer, halves to even
(the rounding used by Python's builtin `round`). -/
def pyRoundInt (q : ℚ) : ℤ :=
  if q - ⌊q⌋ = 1 / 2 then (if ⌊q⌋ % 2 = 0 then ⌊q⌋ else ⌊q⌋ + 1) else round q

/-- Python's `round(q, 2)` over exact rationals. -/
def pyRound2 (q : ℚ) : ℚ :=
  (pyRoundInt (100 * q) : ℚ) / 100

theorem floor_le_pyRoundInt (q : ℚ) : ⌊q⌋ ≤ pyRoundInt q := by
  unfold pyRoundInt
  split
  · split
    · exact le_refl _
    · omega
  · rw [round_eq]
    exact Int.floor_mono (by linarith)

theorem pyRoundInt_le_ceil (q : ℚ) : pyRoundInt q ≤ ⌈q⌉ := by
  unfold pyRoundInt
  split
  · rename_i hhalf
    have hlt : (⌊q⌋ : ℚ) < q := by
      have := Int.floor_le q
      nlinarith [hhalf]
    have hceil : ⌊q⌋ + 1 ≤ ⌈q⌉ := by
      have h1 : (⌊q⌋ : ℚ) < (⌈q⌉ : ℚ) := lt_of_lt_of_le hlt (Int.le_ceil q)
      exact_mod_cast Int.add_one_le_iff.mpr (by exact_mod_cast h1)
    split
    · omega
    · omega
  · rw [round_eq, Int.floor_le_iff]
    have := Int.le_ceil q
    linarith

theorem pyRoundInt_le_half (q : ℚ) : (pyRoundInt q : ℚ) ≤ q + 1 / 2 := by
  unfold pyRoundInt
  split
  · rename_i hhalf
    have hfl : (⌊q⌋ : ℚ) = q - 1 / 2 := by linarith
    split <;> push_cast <;> linarith
  · rw [round_eq]
    have := Int.floor_le (q + 1 / 2)
    linarith

theorem half_le_pyRoundInt (q : ℚ) : q - 1 / 2 ≤ (pyRoundInt q : ℚ) := by
  unfold pyRoundInt
  split
  · rename_i hhalf
    have hfl : (⌊q⌋ : ℚ) = q - 1 / 2 := by linarith
    split <;> push_cast <;> linarith
  · rw [round_eq]
    have := Int.lt_floor_add_one (q + 1 / 2)
    linarith

theorem pyRoundInt_mono {x y : ℚ} (h : x ≤ y) : pyRoundInt x ≤ pyRoundInt y := by
  by_contra hc
  push_neg at hc
  have h1 : pyRoundInt y + 1 ≤ pyRoundInt x := hc
  have h2 : (pyRoundInt x : ℚ) ≤ x + 1 / 2 := pyRoundInt_le_half x
  have h3 : y - 1 / 2 ≤ (pyRoundInt y : ℚ) := half_le_pyRoundInt y
  have h4 : (pyRoundInt y : ℚ) + 1 ≤ (pyRoundInt x : ℚ) := by exact_mod_cast h1
  have hxy : x = y := le_antisymm h (by linarith)
  subst hxy
  omega

theorem pyRound2_nonneg {q : ℚ} (h : 0 ≤ q) : 0 ≤ pyRound2 q := by
  unfold pyRound2
  have h1 : (0 : ℤ) ≤ ⌊100 * q⌋ := Int.le_floor.mpr (by push_cast; linarith)
  have h2 : (0 : ℤ) ≤ pyRoundInt (100 * q) := le_trans h1 (floor_le_pyRoundInt _)
  have : (0 : ℚ) ≤ (pyRoundInt (100 * q) : ℚ) := by exact_mod_cast h2
  linarith

theorem pyRound2_le_ten {q : ℚ} (h : q ≤ 10) : pyRound2 q ≤ 10 := by
  unfold pyRound2
  have h1 : ⌈100 * q⌉ ≤ (1000 : ℤ) := Int.ceil_le.mpr (by push_cast; linarith)
  have h2 : pyRoundInt (100 * q) ≤ (1000 : ℤ) := le_trans (pyRoundInt_le_ceil _) h1
  have : (pyRoundInt (100 * q) : ℚ) ≤ 1000 := by exact_mod_cast h2
  linarith

theorem pyRound2_mono {x y : ℚ} (h : x ≤ y) : pyRound2 x ≤ pyRound2 y := by
  unfold pyRound2
  have h1 : pyRoundInt (100 * x) ≤ pyRoundInt (100 * y) :=
    pyRoundInt_mono (by linarith)
  have h2 : (pyRoundInt (100 * x) : ℚ) ≤ (pyRoundInt (100 * y) : ℚ) := by
    exact_mod_cast h1
  linarith

/- ---------------------------------------------------------------
   Stable sorting (embedding of Python's stable `list.sort`).
   --------------------------------------------------------------- -/

/-- Insert `a` into `l` before the first element `b` with `le a b`. -/
def ordered_insert (le : α → α → Bool) (a : α) : List α → List α
  | [] => [a]
  | b :: l => if le a b then a :: b :: l else b :: ordered_insert le a l

/-- Insertion sort; with a non-strict comparator this is a stable sort, and
stable sorts for one total preorder agree extensionally, so this embeds
Python's `list.sort(key=..., reverse=...)` with `le` the (possibly reversed)
non-strict key comparison. -/
def stable_sort (le : α → α → Bool) : List α → List α
  | [] => []
  | a :: l => ordered_insert le a (stable_sort le l)

theorem length_ordered_insert (le : α → α → Bool) (a : α) (l : List α) :
    (ordered_insert le a l).length = l.length + 1 := by
  induction l with
  | nil => rfl
  | cons b t ih =>
    unfold ordered_insert
    split
    · simp
    · simp [ih]

theorem length_stable_sort (le : α → α → Bool) (l : List α) :
    (stable_sort le l).length = l.length := by
  induction l with
  | nil => rfl
  | cons a t ih =>
    unfold stable_sort
    rw [length_ordered_insert, ih, List.length_cons]

theorem filter_ordered_insert_pos (le : α → α → Bool) (p : α → Bool) (a : α)
    (l : List α) (hp : p a = true) (h : ∀ b, le a b = false → p b = false) :
    (ordered_insert le a l).filter p = a :: l.filter p := by
  induction l with
  | nil => simp [ordered_insert, hp]
  | cons b t ih =>
    unfold ordered_insert
    split
    · simp [List.filter, hp]
    · rename_i hle
      have hb : p b = false := h b (by simpa using hle)
      simp [List.filter, hb, ih]

theorem filter_ordered_insert_neg (le : α → α → Bool) (p : α → Bool) (a : α)
    (l : List α) (hp : p a = false) :
    (ordered_insert le a l).filter p = l.filter p := by
  induction l with
  | nil => simp [ordered_insert, hp]
  | cons b t ih =>
    unfold ordered_insert
    split
    · simp [List.filter, hp]
    · cases hb : p b <;> simp [List.filter, hb, ih]

/-- Stability of `stable_sort`: the comparator never orders an element of the
filtered class strictly after one outside it in a way that matters — filtering
the sorted list by any class `p` compatible with `le` recovers exactly the
filtered input, in input order. -/
theorem filter_stable_sort (le : α → α → Bool) (p : α → Bool) (l : List α)
    (h : ∀ a b, p a = true → le a b = false → p b = false) :
    (stable_sort le l).filter p = l.filter p := by
  induction l with
  | nil => rfl
  | cons a t ih =>
    unfold stable_sort
    cases hp : p a with
    | true =>
      rw [filter_ordered_insert_pos le p a _ hp (h a · hp), ih]
      simp [List.filter, hp]
    | false =>
      rw [filter_ordered_insert_neg le p a _ hp, ih]
      simp [List.filter, hp]

/-- `for i, student in enumerate(results, 1): student["rank"] = i`. -/
def addRanks : Nat → List α → List (Nat × α)
  | _, [] => []
  | i, a :: l => (i, a) :: addRanks (i + 1) l

theorem addRanks_map_fst (i : Nat) (l : List α) :
    (addRanks i l).map Prod.fst = List.range' i l.length := by
  induction l generalizing i with
  | nil => rfl
  | cons a t ih => simp [addRanks, List.range', ih]

theorem addRanks_map_snd (i : Nat) (l : List α) :
    (addRanks i l).map Prod.snd = l := by
  induction l generalizing i with
  | nil => rfl
  | cons a t ih => simp [addRanks, ih]

/- ---------------------------------------------------------------
   api/index.py and result-management/main.py: shared constants.
   --------------------------------------------------------------- -/

/-- One value of `BRANCH_MAP` (`{"short": ..., "name": ...}`). -/
structure BranchEntry where
  short : String
  name : String
deriving DecidableEq

/-- `BRANCH_MAP.get(code, {"short": "UNK", "name": "Unknown"})`, the only way
`BRANCH_MAP` is read in both API files. -/
def BRANCH_MAP_get (code : String) : BranchEntry :=
  if code = "519" then ⟨"AIDS", "Artificial Intelligence & Data Science"⟩
  else if code = "516" then ⟨"AIML", "Artificial Intelligence & Machine Learning"⟩
  else if code = "520" then ⟨"IIOT", "Industrial Internet of Things"⟩
  else if code = "517" then ⟨"AR", "Automation & Robotics"⟩
  else ⟨"UNK", "Unknown"⟩

/-- `branch_codes = {v["short"]: k for k, v in BRANCH_MAP.items()}` followed by
`branch_codes.get(short)`. -/
def branch_codes_get (short : String) : Option String :=
  if short = "AIDS" then some "519"
  else if short = "AIML" then some "516"
  else if short = "IIOT" then some "520"
  else if short = "AR" then some "517"
  else none

/-- `get_branch_from_roll` in `result-management/main.py`: reads `roll_no[2:5]`. -/
def get_branch_from_roll_main (roll_no : String) : BranchEntry :=
  if 5 ≤ roll_no.length then BRANCH_MAP_get (pySlice roll_no 2 5)
  else ⟨"UNK", "Unknown"⟩

/-- `get_branch_from_roll` in `api/index.py`: reads `roll_no[6:9]` (under the
same `len >= 5` guard). -/
def get_branch_from_roll_api (roll_no : String) : BranchEntry :=
  if 5 ≤ roll_no.length then BRANCH_MAP_get (pySlice roll_no 6 9)
  else ⟨"UNK", "Unknown"⟩

/-- A subject dict as consumed by the API `calculate_sgpa`: `credits` models
`subj.get("credits", 0) or 0` (missing/None collapse to 0; parsed credits come
from a `\d+` group so they are naturals), `grade` models
`subj.get("grade", "F")`. -/
structure ApiSubject where
  credits : Nat
  grade : String
deriving DecidableEq

/-- The `grade_points` dict lookup `grade_points.get(grade, 0)` shared by
`calculate_sgpa` in `api/index.py` and `result-management/main.py`. -/
def grade_points_get (g : String) : ℚ :=
  if g = "O" then 10 else if g = "A+" then 9 else if g = "A" then 8
  else if g = "B+" then 7 else if g = "B" then 6 else if g = "C+" then 5
  else if g = "C" then 4 else if g = "D" then 3 else if g = "F" then 0
  else if g = "AB" then 0 else 0

/-- The keys of the API `grade_points` dict. -/
def grade_points_keys : List String :=
  ["O", "A+", "A", "B+", "B", "C+", "C", "D", "F", "AB"]

/-- `total_credits` accumulated by the API `calculate_sgpa` loop. -/
def total_credits_api : List ApiSubject → Nat
  | [] => 0
  | s :: l => s.credits + total_credits_api l

/-- `total_points` accumulated by the API `calculate_sgpa` loop. -/
def total_points_api : List ApiSubject → ℚ
  | [] => 0
  | s :: l => s.credits * grade_points_get s.grade + total_points_api l

/-- `calculate_sgpa` as written (identically) in `api/index.py` and
`result-management/main.py`: returns 0.0 for an empty subject list or zero
total credits, else the rounded weighted average. -/
def calculate_sgpa (subjects : List ApiSubject) : ℚ :=
  if subjects = [] then 0
  else if total_credits_api subjects = 0 then 0
  else pyRound2 (total_points_api subjects / (total_credits_api subjects : ℚ))

/- ---------------------------------------------------------------
   get_ranklist in both API files.
   --------------------------------------------------------------- -/

/-- A student dict as consumed by `get_ranklist`.  Each field models the
corresponding `student.get(key, default)` access (a missing key and the
default value are indistinguishable to all the code embedded here);
`total_marks`/`max_marks` model `student.get(k, 0) or 0`. -/
structure StudentIn where
  roll_no : String
  name : String
  semester : String
  batch : String
  total_marks : Nat
  max_marks : Nat
  credits_secured : Nat
  subjects : List ApiSubject
deriving DecidableEq

/-- One entry of the `results` list built by `get_ranklist` (before the
`rank` key is added). -/
structure RankRecord where
  roll_no : String
  name : String
  branch : String
  branch_name : String
  semester : String
  batch : String
  sgpa : ℚ
  percentage : ℚ
  credits : Nat
deriving DecidableEq

/-- `round((total / max_marks * 100), 2) if max_marks > 0 else 0.0`. -/
def percentage_of (st : StudentIn) : ℚ :=
  if 0 < st.max_marks then
    pyRound2 ((st.total_marks : ℚ) / (st.max_marks : ℚ) * 100)
  else 0

/-- The result dict built per student in `result-management/main.py`
(branch decoded via `roll_no[2:5]`). -/
def build_record_main (st : StudentIn) : RankRecord :=
  ⟨st.roll_no, st.name, (get_branch_from_roll_main st.roll_no).short,
    (get_branch_from_roll_main st.roll_no).name, st.semester, st.batch,
    calculate_sgpa st.subjects, percentage_of st, st.credits_secured⟩

/-- The result dict built per student in `api/index.py`
(branch decoded via `roll_no[6:9]`). -/
def build_record_api (st : StudentIn) : RankRecord :=
  ⟨st.roll_no, st.name, (get_branch_from_roll_api st.roll_no).short,
    (get_branch_from_roll_api st.roll_no).name, st.semester, st.batch,
    calculate_sgpa st.subjects, percentage_of st, st.credits_secured⟩

/-- The branch filter step of `get_ranklist` in `result-management/main.py`:
`if branch:` (falsy `None`/`""` skips), the short-name lookup of the
uppercased token (`if code:` skips silently when it fails), then
`[s for s in filtered if len(s.get("roll_no", "")) >= 5 and s["roll_no"][2:5] == code]`. -/
def filter_branch_main (branch : Option String) (students : List StudentIn) :
    List StudentIn :=
  match branch with
  | none => students
  | some b =>
    if b = "" then students
    else
      match branch_codes_get (toUpperS b) with
      | none => students
      | some code =>
        students.filter
          (fun s => decide (5 ≤ s.roll_no.length) && (pySlice s.roll_no 2 5 == code))

/-- The branch filter step of `get_ranklist` in `api/index.py`: identical to
the backend's but comparing `s["roll_no"][6:9]` against the code. -/
def filter_branch_api (branch : Option String) (students : List StudentIn) :
    List StudentIn :=
  match branch with
  | none => students
  | some b =>
    if b = "" then students
    else
      match branch_codes_get (toUpperS b) with
      | none => students
      | some code =>
        students.filter
          (fun s => decide (5 ≤ s.roll_no.length) && (pySlice s.roll_no 6 9 == code))

/-- `if semester: filtered = [s for s in filtered if s.get("semester") == semester]`. -/
def filter_semester (semester : Option String) (students : List StudentIn) :
    List StudentIn :=
  match semester with
  | none => students
  | some v => if v = "" then students else students.filter (fun s => s.semester == v)

/-- `if batch: filtered = [s for s in filtered if s.get("batch") == batch]`. -/
def filter_batch (batch : Option String) (students : List StudentIn) :
    List StudentIn :=
  match batch with
  | none => students
  | some v => if v = "" then students else students.filter (fun s => s.batch == v)

/-- The sort key of the backend sort: `x["percentage"]` when
`sort_by == "percentage"`, else `x["sgpa"]`. -/
def sort_key_main (sort_by : String) (r : RankRecord) : ℚ :=
  if sort_by = "percentage" then r.percentage else r.sgpa

/-- The backend comparator: stable sort on the key, reversed when
`order.lower() == "desc"`. -/
def le_main (sort_by order : String) (a b : RankRecord) : Bool :=
  if toLowerS order = "desc" then
    decide (sort_key_main sort_by b ≤ sort_key_main sort_by a)
  else
    decide (sort_key_main sort_by a ≤ sort_key_main sort_by b)

/-- The pre-sort collection of `get_ranklist` in `result-management/main.py`:
conjunctive filters applied in source order, then the result dicts. -/
def results_main (branch semester batch : Option String)
    (students : List StudentIn) : List RankRecord :=
  ((filter_batch batch (filter_semester semester
    (filter_branch_main branch students))).map build_record_main)

/-- The `get_ranklist` response. -/
structure RanklistResp where
  total : Nat
  ranklist : List (Nat × RankRecord)
deriving DecidableEq

/-- `get_ranklist` of `result-management/main.py`: filter, build result dicts,
stable-sort by the chosen key, then attach ranks `1..N`. -/
def get_ranklist_main (branch semester batch : Option String)
    (sort_by order : String) (students : List StudentIn) : RanklistResp :=
  let results := results_main branch semester batch students
  let sorted := stable_sort (le_main sort_by order) results
  ⟨sorted.length, addRanks 1 sorted⟩

/-- A Python value as produced by `x.get(sort_by, 0)` on a result dict in
`api/index.py`: either a number or a string. -/
inductive PyVal where
  | num : ℚ → PyVal
  | str : String → PyVal
deriving DecidableEq

/-- Lexicographic string comparison by code point (Python's `<=` on `str`). -/
def lexLe : List Char → List Char → Bool
  | [], _ => true
  | _ :: _, [] => false
  | x :: xs, y :: ys => if x < y then true else if x = y then lexLe xs ys else false

/-- Python `<=` on the values reachable from `x.get(sort_by, 0)`.  For one
sort the constructor is fixed by `sort_by`, so the two mixed cases can never
be reached (in Python they would raise `TypeError`); they are totalized
arbitrarily. -/
def pyval_le : PyVal → PyVal → Bool
  | .num a, .num b => decide (a ≤ b)
  | .str a, .str b => lexLe a.toList b.toList
  | .num _, .str _ => true
  | .str _, .num _ => false

/-- `x.get(sort_by, 0)` on a result dict (the `rank` key does not exist yet
when the sort runs). -/
def get_field (r : RankRecord) (k : String) : PyVal :=
  if k = "roll_no" then .str r.roll_no
  else if k = "name" then .str r.name
  else if k = "branch" then .str r.branch
  else if k = "branch_name" then .str r.branch_name
  else if k = "semester" then .str r.semester
  else if k = "batch" then .str r.batch
  else if k = "sgpa" then .num r.sgpa
  else if k = "percentage" then .num r.percentage
  else if k = "credits" then .num (r.credits : ℚ)
  else .num 0

/-- The serverless comparator: `key=lambda x: x.get(sort_by, 0)` with
`reverse = order.lower() == "desc"`. -/
def le_api (sort_by order : String) (a b : RankRecord) : Bool :=
  if toLowerS order = "desc" then pyval_le (get_field b sort_by) (get_field a sort_by)
  else pyval_le (get_field a sort_by) (get_field b sort_by)

/-- The pre-sort collection of `get_ranklist` in `api/index.py`. -/
def results_api (branch semester batch : Option String)
    (students : List StudentIn) : List RankRecord :=
  ((filter_batch batch (filter_semester semester
    (filter_branch_api branch students))).map build_record_api)

/-- `get_ranklist` of `api/index.py`. -/
def get_ranklist_api (branch semester batch : Option String)
    (sort_by order : String) (students : List StudentIn) : RanklistResp :=
  let results := results_api branch semester batch students
  let sorted := stable_sort (le_api sort_by order) results
  ⟨sorted.length, addRanks 1 sorted⟩

/- ---------------------------------------------------------------
   result-management/models.py
   --------------------------------------------------------------- -/

/-- The `GRADE_POINTS` dict of `models.py` read via `GRADE_POINTS.get(g, 0)`
(IPU convention: `C=5`, `P=4`, no `C+`/`D` entries). -/
def GRADE_POINTS_models_get (g : String) : ℚ :=
  if g = "O" then 10 else if g = "A+" then 9 else if g = "A" then 8
  else if g = "B+" then 7 else if g = "B" then 6 else if g = "C" then 5
  else if g = "P" then 4 else if g = "F" then 0 else 0

/-- One value of `BranchInfo.BRANCHES` (`{"code": ..., "name": ...}`; the
`code` field holds the short name). -/
structure BranchInfoEntry where
  code : String
  name : String
deriving DecidableEq

/-- `BranchInfo.get_branch`: the four-entry table with the
`{"code": "Unknown", "name": "Unknown Branch"}` default. -/
def BranchInfo_get_branch (code : String) : BranchInfoEntry :=
  if code = "519" then ⟨"AIDS", "Artificial Intelligence & Data Science"⟩
  else if code = "516" then ⟨"AIML", "Artificial Intelligence & Machine Learning"⟩
  else if code = "520" then ⟨"IIOT", "Industrial Internet of Things"⟩
  else if code = "517" then ⟨"AR", "Automation & Robotics"⟩
  else ⟨"Unknown", "Unknown Branch"⟩

/-- `EnrollmentDetails` (pydantic model, defaults are empty strings). -/
structure EnrollmentDetails where
  roll_no : String
  class_roll : String
  school_code : String
  branch_code : String
  admission_year : String
  branch_short : String
  branch_name : String
deriving DecidableEq

/-- `EnrollmentDetails.parse`: strip, slice the positional fields when the
stripped length allows, resolve the branch through `BranchInfo.get_branch`;
a roll shorter than 9 yields only `roll_no` (all other fields default). -/
def EnrollmentDetails.parse (roll_no : String) : EnrollmentDetails :=
  let roll := pyStrip roll_no
  if 11 ≤ roll.length then
    let branch_code := pySlice roll 6 9
    let bi := BranchInfo_get_branch branch_code
    ⟨roll_no, pySlice roll 0 3, pySlice roll 3 6, branch_code,
      pySlice roll 9 11, bi.code, bi.name⟩
  else if 9 ≤ roll.length then
    let branch_code := pySlice roll 6 9
    let bi := BranchInfo_get_branch branch_code
    ⟨roll_no, pySlice roll 0 3, pySlice roll 3 6, branch_code, "", bi.code, bi.name⟩
  else ⟨roll_no, "", "", "", "", "", ""⟩

/-- A `Subject` of `models.py` (pydantic; `grade_point` is recomputed from
`grade` in `__init__`, so it is modelled as the derived function
`MSubject.grade_point` rather than a stored field). -/
structure MSubject where
  paper_id : String
  paper_name : String
  credits : ℤ
  internal : Option ℤ
  external : Option ℤ
  total : Option ℤ
  grade : String
deriving DecidableEq

/-- `self.grade_point = float(GRADE_POINTS.get(self.grade, 0))`. -/
def MSubject.grade_point (s : MSubject) : ℚ :=
  GRADE_POINTS_models_get s.grade

/-- A `Student` of `models.py` (fields in source order; derived fields such as
`sgpa` hold whatever was assigned last, and `calculate_sgpa` is modelled as
the pure value it computes and assigns). -/
structure MStudent where
  rank : Option ℤ
  roll_no : String
  name : String
  sid : String
  institution : String
  programme : String
  semester : String
  batch : String
  total_marks : ℤ
  max_marks : ℤ
  percentage : ℚ
  credits_secured : ℤ
  subjects : List MSubject
deriving DecidableEq

/-- `total_credits` accumulated by `Student.calculate_sgpa`
(`if subject.credits and subject.credits > 0`). -/
def total_credits_models : List MSubject → ℤ
  | [] => 0
  | s :: l =>
    (if s.credits ≠ 0 ∧ 0 < s.credits then s.credits else 0) + total_credits_models l

/-- `weighted_sum` accumulated by `Student.calculate_sgpa`. -/
def weighted_sum_models : List MSubject → ℚ
  | [] => 0
  | s :: l =>
    (if s.credits ≠ 0 ∧ 0 < s.credits then
      (s.credits : ℚ) * GRADE_POINTS_models_get s.grade else 0) + weighted_sum_models l

/-- `Student.calculate_sgpa`: credit-weighted average over subjects with
positive credits, rounded to two places; with zero total credits, fall back to
`round(self.percentage / 10, 2) if self.percentage else 0.0`. -/
def MStudent.calculate_sgpa (st : MStudent) : ℚ :=
  let tc := total_credits_models st.subjects
  if 0 < tc then pyRound2 (weighted_sum_models st.subjects / (tc : ℚ))
  else if st.percentage ≠ 0 then pyRound2 (st.percentage / 10)
  else 0

/- ---------------------------------------------------------------
   src/parser/pdf_parser.py: BTechResultParser._parse_student_row
   --------------------------------------------------------------- -/

/-- A `SubjectResult` dataclass. -/
structure SubjectResult where
  paper_id : String
  credits : Nat
  internal : Option ℤ
  external : Option ℤ
  total : Option Nat
  grade : String
deriving DecidableEq

/-- A `StudentResult` dataclass. -/
structure StudentResult where
  roll_no : String
  name : String
  sid : String
  scheme_id : String
  institution : String
  programme : String
  semester : String
  batch : String
  subjects : List SubjectResult
  total_credits_secured : Nat
  remarks : String
deriving DecidableEq

/-- The page context carried in `self.current_*` when `_parse_student_row`
runs. -/
structure ParseCtx where
  institution : String
  programme : String
  semester : String
  batch : String
deriving DecidableEq

/-- Truthiness of a table cell (`None` and `""` are falsy). -/
def cell_truthy : Option String → Bool
  | none => false
  | some s => s ≠ ""

/-- Try the paper pattern `(\d{6})\((\d+)\)` at the head of the list:
six digits, `(`, one or more digits (greedy; the next character cannot be a
digit so no backtracking arises), `)`. -/
def matchPaperAt (l : List Char) : Option (String × Nat) :=
  let d6 := l.take 6
  if d6.length = 6 ∧ d6.all Char.isDigit then
    match l.drop 6 with
    | '(' :: rest =>
      let ds := rest.takeWhile Char.isDigit
      if ds ≠ [] then
        match rest.drop ds.length with
        | ')' :: _ => some (String.mk d6, natOfDigits ds)
        | _ => none
      else none
    | _ => none
  else none

/-- `paper_pattern.search(cell)`: leftmost match of the paper pattern. -/
def paper_search : List Char → Option (String × Nat)
  | [] => none
  | c :: t =>
    match matchPaperAt (c :: t) with
    | some r => some r
    | none => paper_search t

/-- `for cell in row[2:]: if cell: ... paper_pattern.search(str(cell))`;
collects `(paper_id, credits)` per matching cell. -/
def extract_papers : List (Option String) → List (String × Nat)
  | [] => []
  | c :: t =>
    (if cell_truthy c then
      match paper_search (c.getD "").toList with
      | some p => [p]
      | none => []
    else []) ++ extract_papers t

/-- A character of the grade class `[A-Z+\-]`. -/
def gradeClassChar (c : Char) : Bool :=
  ('A' ≤ c && c ≤ 'Z') || c = '+' || c = '-'

/-- `re.match(r'(\d+)\(([A-Z+\-]+|F)\)', s)`: anchored at the start only
(a trailing remainder is allowed); the `F` alternative is subsumed by the
character class, and neither `(` nor `)` belongs to a greedy piece's class, so
greedy matching without backtracking is exact. -/
def matchTotalAt (l : List Char) : Option (Nat × String) :=
  let ds := l.takeWhile Char.isDigit
  if ds = [] then none
  else
    match l.drop ds.length with
    | '(' :: rest =>
      let gs := rest.takeWhile gradeClassChar
      if gs = [] then none
      else
        match rest.drop gs.length with
        | ')' :: _ => some (natOfDigits ds, String.mk gs)
        | _ => none
    | _ => none

/-- `int(str(cell).strip())` under `try`: `none` models the swallowed
exception. -/
def pyIntCell (s : String) : Option ℤ :=
  pyInt (pyStrip s)

/-- The per-paper loop of `_parse_student_row`: walk the paper list two
columns at a time, reading internal/external marks from the marks row and
total-and-grade from the totals row (out-of-range or falsy cells leave the
field at its default). -/
def build_subjects (internal_row total_row : List (Option String)) :
    List (String × Nat) → Nat → List SubjectResult
  | [], _ => []
  | (pid, cr) :: rest, col_idx =>
    let icell := internal_row.getD col_idx none
    let internal := if cell_truthy icell then pyIntCell (icell.getD "") else none
    let ecell := internal_row.getD (col_idx + 1) none
    let external := if cell_truthy ecell then pyIntCell (ecell.getD "") else none
    let tcell := total_row.getD col_idx none
    let tg :=
      if cell_truthy tcell then
        let ts := pyStrip (tcell.getD "")
        match matchTotalAt ts.toList with
        | some (t, g) => (some t, g)
        | none =>
          if ts ∈ (["A", "RL", "C", "D", "AP"] : List String) then ((none : Option Nat), ts)
          else ((none : Option Nat), "")
      else ((none : Option Nat), "")
    ⟨pid, cr, internal, external, tg.1, tg.2⟩ ::
      build_subjects internal_row total_row rest (col_idx + 2)

/-- The credits computation at the end of `_parse_student_row`:
`sum(s.credits for s in student.subjects if s.grade and s.grade not in
['F', 'A', 'RL', 'C', 'D'])`. -/
def credits_secured (subjects : List SubjectResult) : Nat :=
  ((subjects.filter (fun s =>
    decide (s.grade ≠ "") &&
      !(decide (s.grade ∈ (["F", "A", "RL", "C", "D"] : List String))))).map
    SubjectResult.credits).sum

/-- The `SID:`/`SchemeID:` scan over the identity-cell lines (later matching
lines overwrite earlier ones; `elif` gives `SID:` priority). -/
def scan_ids : List (List Char) → String × String → String × String
  | [], acc => acc
  | line :: rest, (sid, scheme_id) =>
    scan_ids rest
      (if containsSub "SID:".toList line then
        (String.mk (pyStripL (replaceAllL "SID:".toList line)), scheme_id)
      else if containsSub "SchemeID:".toList line then
        (sid, String.mk (pyStripL (replaceAllL "SchemeID:".toList line)))
      else (sid, scheme_id))

/-- `BTechResultParser._parse_student_row`: reconstruct one student from the
three stacked rows starting at `start_idx`.  All the row/cell accesses in the
source are either bounds-guarded or applied to an index the caller checked,
so the `try/except` cannot fire and the embedding is total; missing rows
default to `[]` exactly as in the source. -/
def parse_student_row (ctx : ParseCtx) (table : List (List (Option String)))
    (start_idx : Nat) : StudentResult :=
  let row := table.getD start_idx []
  let student_cell :=
    if cell_truthy (row.getD 1 none) then (row.getD 1 none).getD "" else ""
  let lines := splitOnNl student_cell.toList
  let roll_no :=
    match lines with
    | [] => ""
    | l0 :: _ => String.mk (pyStripL l0)
  let name :=
    match lines with
    | _ :: l1 :: _ => String.mk (pyStripL l1)
    | _ => ""
  let ids := scan_ids lines ("", "")
  let papers := extract_papers (row.drop 2)
  let internal_row := table.getD (start_idx + 1) []
  let total_row := table.getD (start_idx + 2) []
  let subjects := build_subjects internal_row total_row papers 2
  ⟨roll_no, name, ids.1, ids.2, ctx.institution, ctx.programme, ctx.semester,
    ctx.batch, subjects, credits_secured subjects, ""⟩

/- ---------------------------------------------------------------
   Concrete inputs used by counterexamples and witnesses.
   --------------------------------------------------------------- -/

/-- A student whose roll number has the real layout (branch code at `[6:9]`). -/
def ex_student_519 : StudentIn :=
  ⟨"05919051924", "STUDENT ONE", "01", "2024", 0, 0, 0, []⟩

/-- A student whose `roll_no[2:5]` slice is the AIML code `516`. -/
def ex_student_516 : StudentIn :=
  ⟨"05516051924", "STUDENT TWO", "01", "2024", 0, 0, 0, []⟩

/-- A result-sheet table holding one three-row student block: two papers, the
first with total cell `80(B)`, the second with no total cell at all (so its
grade stays `""`). -/
def ex_table : List (List (Option String)) :=
  [[some "S.No.", some "Roll no./Name", some "Papers"],
   [some "1", some "05919051924\nJOHN DOE\nSID: 12345", some "015101(3)",
    some "015102(4)"],
   [none, none, some "25", some "55", some "24", some "50"],
   [none, none, some "80(B)"]]

/- ---------------------------------------------------------------
   Claims
   --------------------------------------------------------------- -/

/-- C1 (counterexample): the branch token `"zzz"` resolves to no known branch,
yet `get_ranklist` returns all 1 of the supplied students, not zero results —
the unrecognized filter is silently ignored. -/
theorem claim_C1_counterexample :
    branch_codes_get (toUpperS "zzz") = none ∧
    (get_ranklist_main (some "zzz") none none "sgpa" "desc" [ex_student_519]).total = 1 ∧
    (get_ranklist_api (some "zzz") none none "sgpa" "desc" [ex_student_519]).total = 1 := by
  refine ⟨rfl, ?_, ?_⟩ <;> rfl

/-- C1 (amended): in both `get_ranklist` implementations, a branch token whose
uppercased form is not a known branch short name leaves the request entirely
unfiltered by branch — the response is the one for no branch filter at all
(not zero results, and not an error). -/
theorem claim_C1 (b : String) (sem bat : Option String) (so o : String)
    (sts : List StudentIn) (h : branch_codes_get (toUpperS b) = none) :
    get_ranklist_main (some b) sem bat so o sts =
      get_ranklist_main none sem bat so o sts ∧
    get_ranklist_api (some b) sem bat so o sts =
      get_ranklist_api none sem bat so o sts := by
  have hm : filter_branch_main (some b) sts = sts := by
    unfold filter_branch_main
    by_cases hb : b = "" <;> simp [hb, h]
  have ha : filter_branch_api (some b) sts = sts := by
    unfold filter_branch_api
    by_cases hb : b = "" <;> simp [hb, h]
  constructor
  · unfold get_ranklist_main results_main
    rw [hm]
    rfl
  · unfold get_ranklist_api results_api
    rw [ha]
    rfl

/-- C1 (witness): the amended statement applied at the unrecognized token
`"zzz"` on a concrete one-student collection. -/
theorem claim_C1_witness :
    get_ranklist_main (some "zzz") none none "sgpa" "desc" [ex_student_519] =
      get_ranklist_main none none none "sgpa" "desc" [ex_student_519] :=
  (claim_C1 "zzz" none none "sgpa" "desc" [ex_student_519] rfl).1

/-- C2: the two branch-decoding code paths are not extensionally equal —
on the 11-character roll `05919051924` the backend decoder (slice `[2:5]`)
answers Unknown while the serverless decoder (slice `[6:9]`) answers AIDS. -/
theorem claim_C2 :
    ∃ roll : String, roll.length = 11 ∧
      get_branch_from_roll_main roll ≠ get_branch_from_roll_api roll :=
  ⟨"05919051924", by decide, by decide⟩

/-- C3 (counterexample): filtering by the raw branch code `"519"` does not
restrict to records with branch code 519 — a record with branch code `516`
(decoded short name `AIML`) is returned even though `519` matches neither its
`branch_short` (case-insensitively) nor its branch code. -/
theorem claim_C3_counterexample :
    (get_ranklist_main (some "519") none none "sgpa" "desc"
      [ex_student_516]).ranklist.map (fun p => p.2.roll_no) = ["05516051924"] ∧
    (get_branch_from_roll_main "05516051924").short = "AIML" ∧
    toUpperS "519" ≠ "AIML" ∧ pySlice "05516051924" 2 5 ≠ "519" := by
  refine ⟨rfl, rfl, by decide, by decide⟩

/-- C3 (amended): in both `get_ranklist` implementations the branch filter
accepts a record exactly when the uppercased token equals a known branch
short name (so short-name matching is case-insensitive) and the record's
branch-code slice equals that branch's code; any other token — including a
raw branch code such as `"519"` — leaves the collection unfiltered. -/
theorem claim_C3 (b : String) (sem bat : Option String) (so o : String)
    (sts : List StudentIn) :
    get_ranklist_main (some b) sem bat so o sts =
      get_ranklist_main none sem bat so o
        (match branch_codes_get (toUpperS b) with
         | some code =>
           sts.filter (fun s =>
             decide (5 ≤ s.roll_no.length) && (pySlice s.roll_no 2 5 == code))
         | none => sts) ∧
    get_ranklist_api (some b) sem bat so o sts =
      get_ranklist_api none sem bat so o
        (match branch_codes_get (toUpperS b) with
         | some code =>
           sts.filter (fun s =>
             decide (5 ≤ s.roll_no.length) && (pySlice s.roll_no 6 9 == code))
         | none => sts) := by
  have hm : ∀ l : List StudentIn,
      filter_branch_main (some b) l =
        (match branch_codes_get (toUpperS b) with
         | some code =>
           l.filter (fun s =>
             decide (5 ≤ s.roll_no.length) && (pySlice s.roll_no 2 5 == code))
         | none => l) := by
    intro l
    unfold filter_branch_main
    by_cases hb : b = ""
    · subst hb
      rfl
    · simp only [hb, if_false]
      cases branch_codes_get (toUpperS b) <;> rfl
  have ha : ∀ l : List StudentIn,
      filter_branch_api (some b) l =
        (match branch_codes_get (toUpperS b) with
         | some code =>
           l.filter (fun s =>
             decide (5 ≤ s.roll_no.length) && (pySlice s.roll_no 6 9 == code))
         | none => l) := by
    intro l
    unfold filter_branch_api
    by_cases hb : b = ""
    · subst hb
      rfl
    · simp only [hb, if_false]
      cases branch_codes_get (toUpperS b) <;> rfl
  constructor
  · unfold get_ranklist_main results_main
    rw [hm]
    rfl
  · unfold get_ranklist_api results_api
    rw [ha]
    rfl

/-- C5 (counterexample): for a roll with the unrecognized branch code `999`,
`EnrollmentDetails.parse` resolves the branch to `Unknown`/`Unknown Branch`,
not to the `{short: "UNK", name: "Unknown"}` sentinel the claim names; and for
a roll shorter than 9 characters the branch fields stay empty rather than
resolving to any sentinel. -/
theorem claim_C5_counterexample :
    (EnrollmentDetails.parse "05919099924").branch_short = "Unknown" ∧
    (EnrollmentDetails.parse "05919099924").branch_name = "Unknown Branch" ∧
    "Unknown" ≠ "UNK" ∧
    (EnrollmentDetails.parse "123").branch_short = "" ∧
    ("" : String) ≠ "UNK" ∧ ("" : String) ≠ "Unknown" := by
  refine ⟨rfl, rfl, by decide, rfl, by decide, by decide⟩

/-- An unrecognized branch code falls through `BranchInfo.get_branch` to the
`{"code": "Unknown", "name": "Unknown Branch"}` default. -/
theorem BranchInfo_get_branch_default (code : String)
    (h : code ∉ (["519", "516", "520", "517"] : List String)) :
    BranchInfo_get_branch code = ⟨"Unknown", "Unknown Branch"⟩ := by
  simp only [List.mem_cons, List.mem_singleton, not_or] at h
  obtain ⟨h1, h2, h3, h4⟩ := h
  unfold BranchInfo_get_branch
  simp [h1, h2, h3, h4]

/-- C5 (amended): for every roll number whose stripped form is at least 9
characters long and whose branch-code slice `[6:9]` is not one of the four
known codes, `EnrollmentDetails.parse` resolves the branch — without error —
to the sentinel `branch_short = "Unknown"`, `branch_name = "Unknown Branch"`
(the `{"UNK", "Unknown"}` sentinel belongs to the separate API-layer
decoders, not to this one); and for every roll number whose stripped form
is shorter than 9 characters, every decoded field except `roll_no` is the
empty string — in particular the branch fields are empty, not a sentinel. -/
theorem claim_C5 (roll : String) :
    (9 ≤ (pyStrip roll).length →
      pySlice (pyStrip roll) 6 9 ∉ (["519", "516", "520", "517"] : List String) →
      (EnrollmentDetails.parse roll).branch_short = "Unknown" ∧
        (EnrollmentDetails.parse roll).branch_name = "Unknown Branch") ∧
    ((pyStrip roll).length < 9 →
      EnrollmentDetails.parse roll = ⟨roll, "", "", "", "", "", ""⟩) := by
  constructor
  · intro h9 hcode
    unfold EnrollmentDetails.parse
    have hbr := BranchInfo_get_branch_default _ hcode
    by_cases h11 : 11 ≤ (pyStrip roll).length
    · simp [h11, hbr]
    · simp [h11, h9, hbr]
  · intro hlt
    unfold EnrollmentDetails.parse
    have h11 : ¬ 11 ≤ (pyStrip roll).length := by omega
    have h9 : ¬ 9 ≤ (pyStrip roll).length := by omega
    simp only [h11, if_false, h9]

/-- C5 (witness): the amended statement applied to the concrete rolls
`05919099924` (unknown code `999`) and `123` (shorter than 9). -/
theorem claim_C5_witness :
    ((EnrollmentDetails.parse "05919099924").branch_short = "Unknown" ∧
      (EnrollmentDetails.parse "05919099924").branch_name = "Unknown Branch") ∧
    EnrollmentDetails.parse "123" = ⟨"123", "", "", "", "", "", ""⟩ :=
  ⟨(claim_C5 "05919099924").1 (by decide) (by decide),
    (claim_C5 "123").2 (by decide)⟩

/-- The code's credits-secured guard `s.grade and s.grade not in [...]`,
written with propositional connectives. -/
theorem credits_secured_eq (S : List SubjectResult) :
    credits_secured S =
      ((S.filter (fun s =>
        decide (s.grade ≠ "" ∧
          s.grade ∉ (["F", "A", "RL", "C", "D"] : List String)))).map
        SubjectResult.credits).sum := by
  unfold credits_secured
  congr 1
  congr 1
  apply List.filter_congr
  intro s _
  by_cases h1 : s.grade = "" <;>
    by_cases h2 : s.grade ∈ (["F", "A", "RL", "C", "D"] : List String) <;>
    simp [h1, h2]

/-- C8 (counterexample): in the student reconstructed from `ex_table`, the
second subject has credits 4 but an empty grade (its total cell is missing),
so the code's `total_credits_secured` is 3 while the claim's sum — over all
subjects whose grade is not in `{F, A, RL, C, D}` — is 7. -/
theorem claim_C8_counterexample :
    (parse_student_row ⟨"", "", "", ""⟩ ex_table 1).roll_no = "05919051924" ∧
    (parse_student_row ⟨"", "", "", ""⟩ ex_table 1).subjects.map
      (fun s => (s.paper_id, s.credits, s.grade)) =
      [("015101", 3, "B"), ("015102", 4, "")] ∧
    (parse_student_row ⟨"", "", "", ""⟩ ex_table 1).total_credits_secured = 3 ∧
    (((parse_student_row ⟨"", "", "", ""⟩ ex_table 1).subjects.filter
      (fun s => decide (s.grade ∉ (["F", "A", "RL", "C", "D"] : List String)))).map
      SubjectResult.credits).sum = 7 := by
  refine ⟨rfl, rfl, rfl, rfl⟩

/-- C8 (amended): for every reconstructed student record,
`total_credits_secured` equals the sum of credits over its subjects whose
grade is non-empty and not in `{F, A, RL, C, D}` (so `AB` — and any other
non-empty grade outside that set, such as `AP` — counts toward the sum, but a
subject whose grade is empty does not). -/
theorem claim_C8 (ctx : ParseCtx) (table : List (List (Option String)))
    (i : Nat) :
    (parse_student_row ctx table i).total_credits_secured =
      (((parse_student_row ctx table i).subjects.filter (fun s =>
        decide (s.grade ≠ "" ∧
          s.grade ∉ (["F", "A", "RL", "C", "D"] : List String)))).map
        SubjectResult.credits).sum := by
  unfold parse_student_row
  exact credits_secured_eq _

/-- The models grade table only produces points in `[0, 10]`. -/
theorem GRADE_POINTS_models_get_bounds (g : String) :
    0 ≤ GRADE_POINTS_models_get g ∧ GRADE_POINTS_models_get g ≤ 10 := by
  unfold GRADE_POINTS_models_get
  split_ifs <;> norm_num

theorem total_credits_models_nonneg (l : List MSubject) :
    0 ≤ total_credits_models l := by
  induction l with
  | nil => simp [total_credits_models]
  | cons s t ih =>
    unfold total_credits_models
    split_ifs with h
    · have := h.2
      omega
    · omega

theorem weighted_sum_models_nonneg (l : List MSubject) :
    0 ≤ weighted_sum_models l := by
  induction l with
  | nil => simp [weighted_sum_models]
  | cons s t ih =>
    unfold weighted_sum_models
    split_ifs with h
    · have hg := (GRADE_POINTS_models_get_bounds s.grade).1
      have hc : (0 : ℚ) ≤ (s.credits : ℚ) := by exact_mod_cast le_of_lt h.2
      nlinarith
    · linarith

theorem weighted_sum_models_le (l : List MSubject) :
    weighted_sum_models l ≤ 10 * (total_credits_models l : ℚ) := by
  induction l with
  | nil => simp [weighted_sum_models, total_credits_models]
  | cons s t ih =>
    unfold weighted_sum_models total_credits_models
    split_ifs with h
    · have hg := (GRADE_POINTS_models_get_bounds s.grade).2
      have hc : (0 : ℚ) ≤ (s.credits : ℚ) := by exact_mod_cast le_of_lt h.2
      push_cast
      nlinarith
    · push_cast
      linarith

theorem pyRound2_zero : pyRound2 0 = 0 := by
  have h : pyRoundInt 0 = 0 := by
    unfold pyRoundInt
    norm_num
  unfold pyRound2
  rw [show (100 : ℚ) * 0 = 0 by ring, h]
  norm_num

/-- C4: for every student, when the total of positive subject credits is
positive, `Student.calculate_sgpa` lies in `[0, 10]`; when that total is
zero it equals `round(percentage / 10, 2)`; and when the percentage is also
zero it is `0.0`. -/
theorem claim_C4 (st : MStudent) :
    (0 < total_credits_models st.subjects →
      0 ≤ st.calculate_sgpa ∧ st.calculate_sgpa ≤ 10) ∧
    (total_credits_models st.subjects = 0 →
      st.calculate_sgpa = pyRound2 (st.percentage / 10)) ∧
    (total_credits_models st.subjects = 0 → st.percentage = 0 →
      st.calculate_sgpa = 0) := by
  refine ⟨?_, ?_, ?_⟩
  · intro h
    unfold MStudent.calculate_sgpa
    rw [if_pos h]
    have htc : (0 : ℚ) < (total_credits_models st.subjects : ℚ) := by
      exact_mod_cast h
    have h0 : 0 ≤ weighted_sum_models st.subjects / (total_credits_models st.subjects : ℚ) :=
      div_nonneg (weighted_sum_models_nonneg _) (le_of_lt htc)
    have h10 : weighted_sum_models st.subjects / (total_credits_models st.subjects : ℚ) ≤ 10 :=
      (div_le_iff₀ htc).mpr (by linarith [weighted_sum_models_le st.subjects])
    exact ⟨pyRound2_nonneg h0, pyRound2_le_ten h10⟩
  · intro h
    unfold MStudent.calculate_sgpa
    rw [if_neg (by omega)]
    by_cases hp : st.percentage = 0
    · rw [if_neg (by simp [hp]), hp]
      rw [show (0 : ℚ) / 10 = 0 by norm_num, pyRound2_zero]
    · rw [if_pos hp]
  · intro h hp
    unfold MStudent.calculate_sgpa
    rw [if_neg (by omega), if_neg (by simp [hp])]

/-- A student with two positively weighted subjects (`O` over 4 credits,
`B` over 3). -/
def ex_mstudent_pos : MStudent :=
  ⟨none, "05919051924", "STUDENT A", "", "", "", "06", "2024", 0, 0, 0, 0,
    [⟨"015101", "", 4, none, none, none, "O"⟩,
     ⟨"015102", "", 3, none, none, none, "B"⟩]⟩

/-- A student with no creditable subjects and percentage 87.5. -/
def ex_mstudent_fallback : MStudent :=
  ⟨none, "05919051924", "STUDENT B", "", "", "", "06", "2024", 0, 0, 175 / 2, 0, []⟩

/-- A student with no creditable subjects and zero percentage. -/
def ex_mstudent_zero : MStudent :=
  ⟨none, "05919051924", "STUDENT C", "", "", "", "06", "2024", 0, 0, 0, 0, []⟩

/-- C4 (witness): the three clauses applied at concrete students. -/
theorem claim_C4_witness :
    (0 ≤ ex_mstudent_pos.calculate_sgpa ∧ ex_mstudent_pos.calculate_sgpa ≤ 10) ∧
    ex_mstudent_fallback.calculate_sgpa = pyRound2 ((175 / 2 : ℚ) / 10) ∧
    ex_mstudent_zero.calculate_sgpa = 0 :=
  ⟨(claim_C4 ex_mstudent_pos).1 (by decide),
    (claim_C4 ex_mstudent_fallback).2.1 (by decide),
    (claim_C4 ex_mstudent_zero).2.2 (by decide) (by decide)⟩

/-- Grades outside the API `grade_points` dict look up as the default 0. -/
theorem grade_points_get_of_not_mem (g : String) (h : g ∉ grade_points_keys) :
    grade_points_get g = 0 := by
  simp only [grade_points_keys, List.mem_cons, List.mem_singleton, not_or] at h
  obtain ⟨h1, h2, h3, h4, h5, h6, h7, h8, h9, h10⟩ := h
  unfold grade_points_get
  simp [h1, h2, h3, h4, h5, h6, h7, h8, h9, h10]

theorem grade_points_get_nonneg (g : String) : 0 ≤ grade_points_get g := by
  unfold grade_points_get
  split_ifs <;> norm_num

theorem total_credits_api_append (l1 l2 : List ApiSubject) :
    total_credits_api (l1 ++ l2) = total_credits_api l1 + total_credits_api l2 := by
  induction l1 with
  | nil => simp [total_credits_api]
  | cons s t ih =>
    show s.credits + total_credits_api (t ++ l2) =
      s.credits + total_credits_api t + total_credits_api l2
    rw [ih]
    omega

theorem total_points_api_append (l1 l2 : List ApiSubject) :
    total_points_api (l1 ++ l2) = total_points_api l1 + total_points_api l2 := by
  induction l1 with
  | nil => simp [total_points_api]
  | cons s t ih =>
    show (s.credits : ℚ) * grade_points_get s.grade + total_points_api (t ++ l2) =
      (s.credits : ℚ) * grade_points_get s.grade + total_points_api t + total_points_api l2
    rw [ih]
    ring

theorem total_points_api_nonneg (l : List ApiSubject) :
    0 ≤ total_points_api l := by
  induction l with
  | nil => simp [total_points_api]
  | cons s t ih =>
    unfold total_points_api
    have hg := grade_points_get_nonneg s.grade
    have hc : (0 : ℚ) ≤ (s.credits : ℚ) := by positivity
    nlinarith

/-- C9: in the API `calculate_sgpa` (shared by `api/index.py` and
`result-management/main.py`), a subject whose grade has no entry in the
`grade_points` dict contributes nothing to the weighted points, while its
credits are still added to the denominator; consequently appending such a
subject (with any credits) to a collection with positive total credits can
only lower (never raise) the computed SGPA. -/
theorem claim_C9 (l : List ApiSubject) (s : ApiSubject)
    (h : s.grade ∉ grade_points_keys) :
    total_points_api (l ++ [s]) = total_points_api l ∧
    total_credits_api (l ++ [s]) = total_credits_api l + s.credits ∧
    (0 < total_credits_api l →
      calculate_sgpa (l ++ [s]) ≤ calculate_sgpa l) := by
  have hg : grade_points_get s.grade = 0 := grade_points_get_of_not_mem s.grade h
  have hp : total_points_api (l ++ [s]) = total_points_api l := by
    rw [total_points_api_append]
    simp [total_points_api, hg]
  have hc : total_credits_api (l ++ [s]) = total_credits_api l + s.credits := by
    rw [total_credits_api_append]
    simp [total_credits_api]
  refine ⟨hp, hc, ?_⟩
  intro htc
  have hlne : l ≠ [] := by
    intro he
    rw [he] at htc
    simp [total_credits_api] at htc
  have hlsne : l ++ [s] ≠ [] := by simp
  unfold calculate_sgpa
  rw [if_neg hlne, if_neg hlsne, if_neg (by omega), hp, hc,
    if_neg (by omega)]
  apply pyRound2_mono
  have htcq : (0 : ℚ) < (total_credits_api l : ℚ) := by exact_mod_cast htc
  have htcq2 : (0 : ℚ) < ((total_credits_api l + s.credits : ℕ) : ℚ) := by
    exact_mod_cast Nat.lt_of_lt_of_le htc (Nat.le_add_right _ _)
  rw [div_le_div_iff₀ htcq2 htcq]
  have hpts := total_points_api_nonneg l
  have hcred : (total_credits_api l : ℚ) ≤ ((total_credits_api l + s.credits : ℕ) : ℚ) := by
    exact_mod_cast Nat.le_add_right _ _
  nlinarith

/-- A subject list with one creditable graded subject. -/
def ex_api_subjects : List ApiSubject := [⟨3, "O"⟩]

/-- A subject whose grade `AP` has no entry in the API grade table. -/
def ex_api_ap : ApiSubject := ⟨2, "AP"⟩

/-- C9 (witness): the statement applied at a concrete subject list and an
`AP`-graded subject. -/
theorem claim_C9_witness :
    total_points_api (ex_api_subjects ++ [ex_api_ap]) = total_points_api ex_api_subjects ∧
    total_credits_api (ex_api_subjects ++ [ex_api_ap]) =
      total_credits_api ex_api_subjects + ex_api_ap.credits ∧
    calculate_sgpa (ex_api_subjects ++ [ex_api_ap]) ≤ calculate_sgpa ex_api_subjects :=
  have h := claim_C9 ex_api_subjects ex_api_ap (by decide)
  ⟨h.1, h.2.1, h.2.2 (by decide)⟩

/-- C6: for every request, in both `get_ranklist` implementations the ranks
attached to the output are exactly `1, 2, ..., N` in output order — 1-based,
dense, with no duplicates and no gaps, tied scores included (so all tied
records receive distinct consecutive ranks). -/
theorem claim_C6 (br sem bat : Option String) (so o : String)
    (sts : List StudentIn) :
    (get_ranklist_main br sem bat so o sts).ranklist.map Prod.fst =
      List.range' 1 (get_ranklist_main br sem bat so o sts).total ∧
    (get_ranklist_api br sem bat so o sts).ranklist.map Prod.fst =
      List.range' 1 (get_ranklist_api br sem bat so o sts).total := by
  constructor
  · exact addRanks_map_fst 1 _
  · exact addRanks_map_fst 1 _

/-- C7: the backend ranking sort is stable — for every key value `v` of the
chosen sort field, the records of the ranked output carrying that key value
appear in exactly the order they had in the pre-sort filtered collection,
for ascending and descending requests alike. -/
theorem claim_C7 (br sem bat : Option String) (so o : String)
    (sts : List StudentIn) (v : ℚ) :
    ((get_ranklist_main br sem bat so o sts).ranklist.map Prod.snd).filter
        (fun r => decide (sort_key_main so r = v)) =
      (results_main br sem bat sts).filter
        (fun r => decide (sort_key_main so r = v)) := by
  have hsnd : (get_ranklist_main br sem bat so o sts).ranklist.map Prod.snd =
      stable_sort (le_main so o) (results_main br sem bat sts) :=
    addRanks_map_snd 1 _
  rw [hsnd]
  apply filter_stable_sort
  intro a b hpa hle
  rw [decide_eq_true_eq] at hpa
  rw [decide_eq_false_iff_not]
  unfold le_main at hle
  by_cases ho : toLowerS o = "desc"
  · rw [if_pos ho, decide_eq_false_iff_not] at hle
    intro hb
    exact hle (le_of_eq (hb.trans hpa.symm))
  · rw [if_neg ho, decide_eq_false_iff_not] at hle
    intro hb
    exact hle (le_of_eq (hpa.trans hb.symm))

/-- Two requests differing only in `sort_by`/`order` produce the same backend
response whenever the comparators agree. -/
theorem get_ranklist_main_congr (br sem bat : Option String)
    (so1 o1 so2 o2 : String) (sts : List StudentIn)
    (h : le_main so1 o1 = le_main so2 o2) :
    get_ranklist_main br sem bat so1 o1 sts =
      get_ranklist_main br sem bat so2 o2 sts := by
  unfold get_ranklist_main
  rw [h]

/-- C10: `get_ranklist` is total in `sort_by` and `order` — in the backend
every request behaves exactly like the request with `sort_by` normalized to
`"percentage"`-or-`"sgpa"` (everything other than `"percentage"` sorts by
sgpa) and `order` normalized to `"desc"`-or-`"asc"` (anything whose
lowercasing is not `"desc"` sorts ascending); and the serverless
implementation returns a ranked result (ranks `1..N`) for every `sort_by`
and `order` value. -/
theorem claim_C10 (br sem bat : Option String) (so o : String)
    (sts : List StudentIn) :
    get_ranklist_main br sem bat so o sts =
      get_ranklist_main br sem bat
        (if so = "percentage" then "percentage" else "sgpa")
        (if toLowerS o = "desc" then "desc" else "asc") sts ∧
    (get_ranklist_api br sem bat so o sts).ranklist.map Prod.fst =
      List.range' 1 (get_ranklist_api br sem bat so o sts).total := by
  constructor
  · apply get_ranklist_main_congr
    funext a b
    unfold le_main sort_key_main
    by_cases hso : so = "percentage" <;> by_cases ho : toLowerS o = "desc" <;>
      simp [hso, ho, show toLowerS "desc" = "desc" from rfl,
        show toLowerS "asc" = "asc" from rfl]
  · exact addRanks_map_fst 1 _
